import Mathlib

/-!
Shallow embedding of the `rust-processor` ingestion service
(`cemetery_platform/services/rust-processor/src/{models,parser,database,processor}.rs`).

Modelling conventions:
* `chrono::NaiveDate` is modelled as `Int` (a day count); the only operations the
  source uses on dates are comparison and stringification.
* `f64` latitude/longitude values are modelled as `Rat`; the source only compares
  them against the literal bounds (-90, 90, -180, 180) and embeds them in output, so
  exact rationals are a faithful abstraction of the float values involved.
* External text-parsing primitives (`NaiveDate::parse_from_str(_, "%Y-%m-%d")`,
  `str::parse::<f64>().ok()`, `str::parse::<i32>().ok()`) live in external crates,
  not in this repository, so they are passed in as uninterpreted oracle functions
  `String → Option _`; every theorem quantifies over them.
* `log::warn!` lines emitted by the CSV strategy are materialized as a returned
  warning list so that "skipped with a warning" is statable; the Rust function's
  value is the record-list component.
* Fallible `sqlx` calls are modelled with an explicit failure oracle where the
  source inspects the failure (per-record upserts inside `insert_batch`).
-/

/-- Models `chrono::NaiveDate` as a day count; the source only compares dates and
prints them. -/
abbrev Date := Int

/-- A JSON scalar as placed into a `serde_json::Map` property bag by the source. -/
inductive PropVal where
  | str : String → PropVal
  | int : Int → PropVal
  deriving Repr, DecidableEq

/-- `models.rs`: `DeceasedRecord` (the canonical record). `serde_json::Value`
metadata is modelled as an opaque optional string blob. -/
structure DeceasedRecord where
  record_id : String
  deceased_name : String
  deceased_name_arabic : Option String
  father_name : Option String
  grandfather_name : Option String
  death_date : Date
  death_location : Option String
  burial_date : Date
  burial_location : String
  cem_section : Option String
  row_number : Option Int
  plot_number : Option Int
  grave_number : Option String
  latitude : Option Rat
  longitude : Option Rat
  age_at_death : Option Int
  cause_of_death : Option String
  national_id : Option String
  family_contact : Option String
  additional_data : Option String
  deriving Repr, DecidableEq

/-- `models.rs`: `GeoJsonGeometry`. -/
structure GeoJsonGeometry where
  geometry_type : String
  coordinates : List Rat
  deriving Repr, DecidableEq

/-- `models.rs`: `GeoJsonFeature`; the `serde_json::Value` property object is
modelled as the association list of insertions performed by the source. -/
structure GeoJsonFeature where
  feature_type : String
  geometry : GeoJsonGeometry
  properties : List (String × PropVal)
  deriving Repr, DecidableEq

/-- `models.rs`: `ErrorDetails`. -/
structure ErrorDetails where
  record_id : Option String
  message : String
  deriving Repr, DecidableEq

/-- `models.rs`: `ProcessingResult`. -/
structure ProcessingResult where
  records_processed : Int
  records_failed : Int
  geojson_features_created : Int
  errors : List ErrorDetails
  deriving Repr, DecidableEq

/-- `models.rs`: `FileMetadata`. -/
structure FileMetadata where
  filename : String
  file_hash : String
  size : Int
  download_time : String
  extracted_path : Option String
  deriving Repr, DecidableEq

namespace DeceasedRecord

/-- `models.rs`: `DeceasedRecord::validate`, check for check in source order,
returning the first failing check's message. -/
def validate (r : DeceasedRecord) : Except String Unit :=
  if r.record_id.isEmpty then
    .error "record_id is required"
  else if r.deceased_name.isEmpty then
    .error "deceased_name is required"
  else if r.burial_location.isEmpty then
    .error "burial_location is required"
  else if r.burial_date < r.death_date then
    .error "burial_date cannot be before death_date"
  else
    -- `if let (Some(lat), Some(lon)) = (self.latitude, self.longitude)`
    match r.latitude, r.longitude with
    | some lat, some lon =>
      if lat < -90 ∨ lat > 90 then
        .error "Invalid latitude"
      else if lon < -180 ∨ lon > 180 then
        .error "Invalid longitude"
      else
        .ok ()
    | _, _ => .ok ()

/-- `models.rs`: `DeceasedRecord::has_coordinates`. -/
def has_coordinates (r : DeceasedRecord) : Bool :=
  r.latitude.isSome && r.longitude.isSome

/-- `models.rs`: `DeceasedRecord::to_geojson_feature`. The source guards on
`has_coordinates` and then unwraps both options; the guard and the unwraps are
rendered as one pattern match on the coordinate pair. Property insertions are
listed in source order. -/
def to_geojson_feature (r : DeceasedRecord) : Option GeoJsonFeature :=
  match r.latitude, r.longitude with
  | some lat, some lon =>
    let properties : List (String × PropVal) :=
      [("record_id", .str r.record_id),
       ("name", .str r.deceased_name),
       ("burial_date", .str (toString r.burial_date)),
       ("burial_location", .str r.burial_location)]
      ++ (match r.cem_section with
          | some s => [("section", PropVal.str s)]
          | none => [])
      ++ (match r.row_number with
          | some n => [("row", PropVal.int n)]
          | none => [])
      ++ (match r.plot_number with
          | some n => [("plot", PropVal.int n)]
          | none => [])
    some { feature_type := "Feature",
           geometry := { geometry_type := "Point", coordinates := [lon, lat] },
           properties := properties }
  | _, _ => none

end DeceasedRecord

/-! ## Parser (`parser.rs`)

The CSV crate's reading layer is external: the iterator `reader.deserialize()`
yields, per data line, either a structurally-read `csv::StringRecord` (a list of
field strings) or a structural read error. A parsed-or-failed input line is
modelled with `CsvRow`. -/

/-- One item yielded by the csv reader's record iterator: a successfully read row
of field strings, or a structural read error with its message. -/
inductive CsvRow where
  | ok : List String → CsvRow
  | err : String → CsvRow
  deriving Repr, DecidableEq

/-- A `log::warn!` line emitted while parsing a CSV file: the 1-based line number
and the message. -/
structure LineWarning where
  line : Nat
  message : String
  deriving Repr, DecidableEq

/-- The oracle bundle for the external text-parsing primitives used by
`parser.rs`: `parseDate s` models `NaiveDate::parse_from_str(s, "%Y-%m-%d").ok()`,
`parseF64 s` models `s.parse::<f64>().ok()`, `parseI32 s` models
`s.parse::<i32>().ok()`. -/
structure ParseOracle where
  parseDate : String → Option Date
  parseF64 : String → Option Rat
  parseI32 : String → Option Int

namespace DataParser

/-- `parser.rs`: `DataParser::parse_csv_record`. `record.get(i)` is `fields.get? i`;
`unwrap_or("")` is `Option.getD _ ""`. The two `NaiveDate::parse_from_str(..)?`
calls propagate failure, in source (struct-literal) order: death date first. -/
def parse_csv_record (o : ParseOracle) (fields : List String) :
    Except String DeceasedRecord := do
  let death_date ←
    match o.parseDate ((fields.get? 3).getD "") with
    | some d => Except.ok d
    | none => Except.error "input is not enough for unique date and time"
  let burial_date ←
    match o.parseDate ((fields.get? 4).getD "") with
    | some d => Except.ok d
    | none => Except.error "input is not enough for unique date and time"
  Except.ok
    { record_id := (fields.get? 0).getD ""
      deceased_name := (fields.get? 1).getD ""
      deceased_name_arabic := (fields.get? 2).map id
      father_name := none
      grandfather_name := none
      death_date := death_date
      death_location := none
      burial_date := burial_date
      burial_location := (fields.get? 5).getD ""
      cem_section := (fields.get? 8).map id
      row_number := (fields.get? 9).bind o.parseI32
      plot_number := (fields.get? 10).bind o.parseI32
      grave_number := none
      latitude := (fields.get? 6).bind o.parseF64
      longitude := (fields.get? 7).bind o.parseF64
      age_at_death := none
      cause_of_death := none
      national_id := none
      family_contact := none
      additional_data := none }

/-- Loop body chain of `parser.rs`: `DataParser::parse_csv_file`. `line_number`
starts at 1 (the header) and is incremented before each row is examined. An `err`
item takes the `warn!`-and-continue branch; an `ok` item runs `parse_csv_record`
and the `?` propagates its failure, aborting the whole file. -/
def parse_csv_rows (o : ParseOracle) (rows : List CsvRow) (line_number : Nat)
    (records : List DeceasedRecord) (warnings : List LineWarning) :
    Except String (List DeceasedRecord × List LineWarning) :=
  match rows with
  | [] => Except.ok (records, warnings)
  | CsvRow.ok fields :: rest => do
    let record ← parse_csv_record o fields
    parse_csv_rows o rest (line_number + 1) (records ++ [record]) warnings
  | CsvRow.err e :: rest =>
    parse_csv_rows o rest (line_number + 1) records
      (warnings ++ [⟨line_number + 1, s!"Error parsing CSV line: {e}"⟩])

/-- `parser.rs`: `DataParser::parse_csv_file`, over the row stream the csv reader
yields for the file. The warning component materializes the `warn!` log lines;
the Rust function's return value is the record-list component. -/
def parse_csv_file (o : ParseOracle) (rows : List CsvRow) :
    Except String (List DeceasedRecord × List LineWarning) :=
  parse_csv_rows o rows 1 [] []

/-- `parser.rs`: the nested serde target `JsonCoordinates` of `parse_json_file`. -/
structure JsonCoordinates where
  latitude : Rat
  longitude : Rat
  deriving Repr, DecidableEq

/-- `parser.rs`: the nested serde target `JsonLocation` of `parse_json_file`. -/
structure JsonLocation where
  cem_section : Option String
  row : Option Int
  plot : Option Int
  deriving Repr, DecidableEq

/-- `parser.rs`: the serde target `JsonRecord` of `parse_json_file`. -/
structure JsonRecord where
  record_id : String
  deceased_name : String
  deceased_name_arabic : Option String
  death_date : String
  burial_date : String
  burial_location : String
  coordinates : Option JsonCoordinates
  location : Option JsonLocation
  deriving Repr, DecidableEq

/-- A record object of the top-level `records` array as it sits in the JSON text,
before serde requires anything: each named field either present or absent. -/
structure RawJsonRecord where
  record_id : Option String
  deceased_name : Option String
  deceased_name_arabic : Option String
  death_date : Option String
  burial_date : Option String
  burial_location : Option String
  coordinates : Option JsonCoordinates
  location : Option JsonLocation
  deriving Repr, DecidableEq

/-- serde's derived deserializer for `JsonRecord`: a missing required field is a
deserialization error for the whole document. -/
def decodeJsonRecord (raw : RawJsonRecord) : Except String JsonRecord :=
  match raw.record_id, raw.deceased_name, raw.death_date, raw.burial_date,
      raw.burial_location with
  | some rid, some name, some dd, some bd, some bl =>
    Except.ok
      { record_id := rid
        deceased_name := name
        deceased_name_arabic := raw.deceased_name_arabic
        death_date := dd
        burial_date := bd
        burial_location := bl
        coordinates := raw.coordinates
        location := raw.location }
  | _, _, _, _, _ => Except.error "missing field"

/-- Conversion loop body of `parse_json_file`: one `JsonRecord` to one
`DeceasedRecord`, with both `NaiveDate::parse_from_str(..)?` calls propagating
failure. -/
def json_record_to_deceased (o : ParseOracle) (j : JsonRecord) :
    Except String DeceasedRecord := do
  let death_date ←
    match o.parseDate j.death_date with
    | some d => Except.ok d
    | none => Except.error "input is not enough for unique date and time"
  let burial_date ←
    match o.parseDate j.burial_date with
    | some d => Except.ok d
    | none => Except.error "input is not enough for unique date and time"
  Except.ok
    { record_id := j.record_id
      deceased_name := j.deceased_name
      deceased_name_arabic := j.deceased_name_arabic
      father_name := none
      grandfather_name := none
      death_date := death_date
      death_location := none
      burial_date := burial_date
      burial_location := j.burial_location
      cem_section := j.location.bind (·.cem_section)
      row_number := j.location.bind (·.row)
      plot_number := j.location.bind (·.plot)
      grave_number := none
      latitude := j.coordinates.map (·.latitude)
      longitude := j.coordinates.map (·.longitude)
      age_at_death := none
      cause_of_death := none
      national_id := none
      family_contact := none
      additional_data := none }

/-- `parser.rs`: `DataParser::parse_json_file`, over the `records` array of the
document. `serde_json::from_reader` deserializes the whole document first (any
missing required field fails the file); the subsequent loop converts records in
order, aborting the file on the first unparseable date. -/
def parse_json_file (o : ParseOracle) (raws : List RawJsonRecord) :
    Except String (List DeceasedRecord) := do
  let data ← raws.mapM decodeJsonRecord
  data.mapM (json_record_to_deceased o)

end DataParser

/-! ## Database (`database.rs`)

The Postgres store is modelled as explicit state: the `deceased_records` table is
a list of rows in insertion order with a running serial id, the
`najaf_cemetery_features` table a list of features, the `file_processing_log`
table an append-only list of entries. `CURRENT_TIMESTAMP` is an explicit `now`
argument. -/

/-- One row of the `deceased_records` table: exactly the columns written by the
`INSERT` in `Database::insert_deceased_record`, plus the serial `id` and the
`updated_at` column touched by the conflict branch. -/
structure DbRow where
  id : Int
  record_id : String
  deceased_name : String
  deceased_name_arabic : Option String
  father_name : Option String
  grandfather_name : Option String
  death_date : Date
  death_location : Option String
  burial_date : Date
  burial_location : String
  cem_section : Option String
  row_number : Option Int
  plot_number : Option Int
  grave_number : Option String
  coordinates : Option String
  age_at_death : Option Int
  cause_of_death : Option String
  national_id : Option String
  family_contact : Option String
  additional_data : Option String
  source_file : String
  processing_status : String
  updated_at : Option Nat
  deriving Repr, DecidableEq

/-- One row of the `najaf_cemetery_features` table, as built by
`Database::create_geojson_features`: `jsonb_build_object` keeps every key, with
SQL `NULL` values for absent section/row/plot. -/
structure StoredFeature where
  feature_id : String
  geometry : Option String
  properties : List (String × Option PropVal)
  deriving Repr, DecidableEq

/-- One row of the append-only `file_processing_log` table, as written by
`Database::log_file_processing`. -/
structure LogEntry where
  filename : String
  file_hash : String
  file_size : Int
  records_total : Int
  records_processed : Int
  records_failed : Int
  status : String
  error_message : Option String
  processing_end_time : Nat
  deriving Repr, DecidableEq

/-- The persistent store the service talks to through its connection pool. -/
structure DbState where
  rows : List DbRow
  next_id : Int
  features : List StoredFeature
  log : List LogEntry
  deriving Repr, DecidableEq

namespace Database

/-- `database.rs`: the `coordinates_wkt` let-binding of `insert_deceased_record`:
`POINT(lon lat)` when both coordinates are present, SQL `NULL` otherwise
(`ST_GeomFromText(NULL, 4326)` is `NULL`). -/
def coordinates_wkt (r : DeceasedRecord) : Option String :=
  match r.latitude, r.longitude with
  | some lat, some lon => some s!"POINT({lon} {lat})"
  | _, _ => none

/-- The row created by the `INSERT` arm of `insert_deceased_record` for a fresh
`record_id`: every bound column from the record, `source_file` from the argument,
`processing_status` hard-coded `"completed"`, `updated_at` untouched. -/
def DbRow.ofRecord (r : DeceasedRecord) (source_file : String) (id : Int) : DbRow :=
  { id := id
    record_id := r.record_id
    deceased_name := r.deceased_name
    deceased_name_arabic := r.deceased_name_arabic
    father_name := r.father_name
    grandfather_name := r.grandfather_name
    death_date := r.death_date
    death_location := r.death_location
    burial_date := r.burial_date
    burial_location := r.burial_location
    cem_section := r.cem_section
    row_number := r.row_number
    plot_number := r.plot_number
    grave_number := r.grave_number
    coordinates := coordinates_wkt r
    age_at_death := r.age_at_death
    cause_of_death := r.cause_of_death
    national_id := r.national_id
    family_contact := r.family_contact
    additional_data := r.additional_data
    source_file := source_file
    processing_status := "completed"
    updated_at := none }

/-- The `ON CONFLICT (record_id) DO UPDATE SET` arm of `insert_deceased_record`:
exactly `deceased_name`, `burial_date`, `coordinates`, `updated_at` and
`processing_status` are set from the excluded (incoming) row. -/
def DbRow.onConflictUpdate (row : DbRow) (r : DeceasedRecord) (now : Nat) : DbRow :=
  { row with
    deceased_name := r.deceased_name
    burial_date := r.burial_date
    coordinates := coordinates_wkt r
    updated_at := some now
    processing_status := "completed" }

/-- `database.rs`: `Database::insert_deceased_record` (the successful execution of
its upsert statement): insert keyed by the unique `record_id` constraint, update
the conflict-listed columns of the existing row otherwise; `RETURNING id` gives
the touched row's id. -/
def insert_deceased_record (st : DbState) (r : DeceasedRecord)
    (source_file : String) (now : Nat) : DbState × Int :=
  match st.rows.find? (fun row => row.record_id == r.record_id) with
  | some row =>
    ({ st with
        rows := st.rows.map fun q =>
          if q.record_id == r.record_id then DbRow.onConflictUpdate q r now else q },
      row.id)
  | none =>
    ({ st with
        rows := st.rows ++ [DbRow.ofRecord r source_file st.next_id]
        next_id := st.next_id + 1 },
      st.next_id)

/-- A fallible run of `insert_deceased_record`: `sqlx` may fail the statement (a
failed statement leaves the store unchanged). `fail = true` plays the `Err` case
that `insert_batch` inspects. -/
def insert_deceased_record_res (fail : Bool) (st : DbState) (r : DeceasedRecord)
    (source_file : String) (now : Nat) : Except String (DbState × Int) :=
  if fail then Except.error "database error"
  else Except.ok (insert_deceased_record st r source_file now)

/-- Loop of `database.rs`: `Database::insert_batch`, threading the success counter
`inserted`; `fails i` tells whether the i-th per-record statement of this batch
fails. An `Err` is only logged (`error!`): the loop continues and the state keeps
the rows already committed. -/
def insert_batch_loop (fails : Nat → Bool) (st : DbState)
    (records : List DeceasedRecord) (source_file : String) (now : Nat)
    (i : Nat) (inserted : Nat) : Except String (DbState × Nat) :=
  match records with
  | [] => Except.ok (st, inserted)
  | r :: rest =>
    match insert_deceased_record_res (fails i) st r source_file now with
    | Except.ok (st', _) =>
      insert_batch_loop fails st' rest source_file now (i + 1) (inserted + 1)
    | Except.error _ =>
      insert_batch_loop fails st rest source_file now (i + 1) inserted

/-- `database.rs`: `Database::insert_batch`. -/
def insert_batch (fails : Nat → Bool) (st : DbState)
    (records : List DeceasedRecord) (source_file : String) (now : Nat) :
    Except String (DbState × Nat) :=
  insert_batch_loop fails st records source_file now 0 0

/-- The feature row the `INSERT ... SELECT` of `create_geojson_features` builds
from one `deceased_records` row. -/
def featureOfRow (row : DbRow) : StoredFeature :=
  { feature_id := row.record_id
    geometry := row.coordinates
    properties :=
      [("record_id", some (.str row.record_id)),
       ("name", some (.str row.deceased_name)),
       ("burial_date", some (.str (toString row.burial_date))),
       ("burial_location", some (.str row.burial_location)),
       ("section", row.cem_section.map .str),
       ("row", row.row_number.map .int),
       ("plot", row.plot_number.map .int)] }

/-- `database.rs`: `Database::create_geojson_features`: `DELETE` every existing
feature, then repopulate from every record row with non-`NULL` coordinates and
`'completed'` status; returns the number of inserted rows. -/
def create_geojson_features (st : DbState) : DbState × Int :=
  let selected := st.rows.filter fun row =>
    row.coordinates.isSome && row.processing_status == "completed"
  ({ st with features := selected.map featureOfRow }, (selected.length : Int))

/-- `database.rs`: `Database::log_file_processing`: one `INSERT` into the
append-only `file_processing_log`, with `processing_end_time = CURRENT_TIMESTAMP`. -/
def log_file_processing (st : DbState) (filename file_hash : String)
    (file_size records_total records_processed records_failed : Int)
    (status : String) (error_message : Option String) (now : Nat) : DbState :=
  { st with
    log := st.log ++
      [{ filename := filename
         file_hash := file_hash
         file_size := file_size
         records_total := records_total
         records_processed := records_processed
         records_failed := records_failed
         status := status
         error_message := error_message
         processing_end_time := now }] }

end Database

/-! ## Format detection and the ingestion orchestrator (`parser.rs` / `processor.rs`)

A file on disk is modelled by its name together with the two views the two
parser strategies would take of its bytes: the row stream the csv reader yields
and the `records` array a JSON reading of it exposes. `detect_and_parse` picks
one view from the (lower-cased) extension of the name. -/

/-- A regular file, as consumed by `DataParser::detect_and_parse`. -/
structure SrcFile where
  name : String
  csvContent : List CsvRow
  jsonContent : List DataParser.RawJsonRecord

namespace DataParser

/-- The characters after the last `.` of a file name, when it has a dot. -/
def lastDotSplit : List Char → Option (List Char)
  | [] => none
  | c :: rest =>
    match lastDotSplit rest with
    | some e => some e
    | none => if c = '.' then some rest else none

/-- `std::path::Path::extension` on a file name: the suffix after the last dot;
absent when there is no dot, or when the only dot is the leading dot of a
hidden-file name. -/
def extension (name : String) : Option String :=
  match name.data with
  | [] => none
  | c0 :: rest =>
    if c0 = '.' then (lastDotSplit rest).map fun e => ⟨e⟩
    else (lastDotSplit (c0 :: rest)).map fun e => ⟨e⟩

/-- ASCII lower-casing of `str::to_lowercase` (extensions are ASCII here). -/
def asciiLower (c : Char) : Char :=
  if 'A' ≤ c ∧ c ≤ 'Z' then Char.ofNat (c.toNat + 32) else c

/-- Lower-casing of a file extension. -/
def toLowerStr (s : String) : String := ⟨s.data.map asciiLower⟩

/-- `parser.rs`: `DataParser::detect_and_parse`: strategy choice on the
lower-cased extension; unrecognized or missing extensions are errors. -/
def detect_and_parse (o : ParseOracle) (f : SrcFile) :
    Except String (List DeceasedRecord) :=
  match (extension f.name).map toLowerStr with
  | some "csv" => (parse_csv_file o f.csvContent).map Prod.fst
  | some "json" => parse_json_file o f.jsonContent
  | some ext => Except.error s!"Unsupported file format: {ext}"
  | none => Except.error "No file extension found"

end DataParser

namespace DataProcessor

/-- Parse loop of `DataProcessor::process_directory`: pools the records of every
file `detect_and_parse` accepts and collects one `ErrorDetails` (with no record
id) per file it rejects, in directory order. -/
def parse_stage (o : ParseOracle) : List SrcFile →
    List DeceasedRecord × List ErrorDetails
  | [] => ([], [])
  | f :: rest =>
    let (recs, errs) := parse_stage o rest
    match DataParser.detect_and_parse o f with
    | Except.ok records => (records ++ recs, errs)
    | Except.error e =>
      let n := f.name
      (recs, ⟨none, s!"Failed to parse file {n}: {e}"⟩ :: errs)

/-- Validation loop shared by both orchestrator entry points: keeps the records
`validate` accepts and collects one `ErrorDetails` (carrying the record id) per
record it rejects, in pool order. -/
def validate_stage : List DeceasedRecord →
    List DeceasedRecord × List ErrorDetails
  | [] => ([], [])
  | r :: rest =>
    let (valid, errs) := validate_stage rest
    match r.validate with
    | Except.ok _ => (r :: valid, errs)
    | Except.error e => (valid, ⟨some r.record_id, e⟩ :: errs)

/-- `processor.rs`: `DataProcessor::process_directory`. `dir = none` plays the
missing-or-not-a-directory branch (the only fatal path check); `dir = some files`
is the list of regular files `read_dir` yields. Downstream: validate, batch
upsert, feature rebuild, audit log, aggregate. -/
def process_directory (o : ParseOracle) (fails : Nat → Bool) (st : DbState)
    (dir : Option (List SrcFile)) (metadata : FileMetadata) (now : Nat) :
    Except String (DbState × ProcessingResult) := do
  match dir with
  | none => Except.error "Directory does not exist or is not a directory"
  | some files =>
    let parsed := parse_stage o files
    let validated := validate_stage parsed.1
    let errors := parsed.2 ++ validated.2
    let inserted ←
      Database.insert_batch fails st validated.1 metadata.filename now
    let rebuilt := Database.create_geojson_features inserted.1
    let logged := Database.log_file_processing rebuilt.1 metadata.filename
      metadata.file_hash metadata.size
      ((validated.1.length : Int) + (errors.length : Int))
      (inserted.2 : Int) (errors.length : Int) "completed" none now
    Except.ok (logged,
      { records_processed := (inserted.2 : Int)
        records_failed := (errors.length : Int)
        geojson_features_created := rebuilt.2
        errors := errors })

/-- `processor.rs`: `DataProcessor::process_single_file`. `file = none` plays the
missing-or-not-a-file branch. `detect_and_parse(path)?` propagates: a file-level
parse failure or unsupported format aborts the run here. -/
def process_single_file (o : ParseOracle) (fails : Nat → Bool) (st : DbState)
    (file : Option SrcFile) (metadata : FileMetadata) (now : Nat) :
    Except String (DbState × ProcessingResult) := do
  match file with
  | none => Except.error "File does not exist or is not a file"
  | some f =>
    let records ← DataParser.detect_and_parse o f
    let validated := validate_stage records
    let errors := validated.2
    let inserted ←
      Database.insert_batch fails st validated.1 metadata.filename now
    let rebuilt := Database.create_geojson_features inserted.1
    let logged := Database.log_file_processing rebuilt.1 metadata.filename
      metadata.file_hash metadata.size
      ((validated.1.length : Int) + (errors.length : Int))
      (inserted.2 : Int) (errors.length : Int) "completed" none now
    Except.ok (logged,
      { records_processed := (inserted.2 : Int)
        records_failed := (errors.length : Int)
        geojson_features_created := rebuilt.2
        errors := errors })

end DataProcessor

/-! ## Theorems

Helper lemmas first, then one theorem per claim (with a witness where the
theorem carries hypotheses). -/

/-- `validate` accepts a record exactly when all five specified checks hold. -/
lemma validate_ok_iff (r : DeceasedRecord) :
    r.validate = Except.ok () ↔
      (r.record_id.isEmpty = false ∧ r.deceased_name.isEmpty = false ∧
       r.burial_location.isEmpty = false ∧ r.death_date ≤ r.burial_date ∧
       ∀ lat lon, r.latitude = some lat → r.longitude = some lon →
         -90 ≤ lat ∧ lat ≤ 90 ∧ -180 ≤ lon ∧ lon ≤ 180) := by
  unfold DeceasedRecord.validate
  rcases hlat : r.latitude with _ | lat <;> rcases hlon : r.longitude with _ | lon <;>
    simp only [hlat, hlon] <;>
    split_ifs with h1 h2 h3 h4 h5 h6 <;>
    simp_all [not_or, not_lt] <;>
    intros <;>
    first
      | (rcases h5 with h | h <;> linarith)
      | (rcases h6 with h | h <;> linarith)

/-- A concrete well-formed record without coordinates, for witnesses. -/
def sampleValidRecord : DeceasedRecord :=
  { record_id := "R1"
    deceased_name := "Ali"
    deceased_name_arabic := none
    father_name := none
    grandfather_name := none
    death_date := 10
    death_location := none
    burial_date := 11
    burial_location := "Najaf"
    cem_section := none
    row_number := none
    plot_number := none
    grave_number := none
    latitude := none
    longitude := none
    age_at_death := none
    cause_of_death := none
    national_id := none
    family_contact := none
    additional_data := none }

/-- A concrete record with coordinates lat = 32.0, lon = 44.3, for witnesses. -/
def sampleCoordRecord : DeceasedRecord :=
  { sampleValidRecord with
    record_id := "R2"
    latitude := some 32
    longitude := some (443 / 10)
    cem_section := some "A"
    row_number := some 5
    plot_number := none }

/-- C4: `validate` accepts a record iff `record_id`, `deceased_name` and
`burial_location` are non-empty, `burial_date >= death_date`, and — when both
coordinates are present — latitude lies in [-90, 90] and longitude in
[-180, 180] (inclusive); moreover the checks run in exactly that order and
short-circuit, so the error returned is the message of the first violated
check. -/
theorem C4_validate_functional_spec (r : DeceasedRecord) :
    (r.validate = Except.ok () ↔
      (r.record_id.isEmpty = false ∧ r.deceased_name.isEmpty = false ∧
       r.burial_location.isEmpty = false ∧ r.death_date ≤ r.burial_date ∧
       ∀ lat lon, r.latitude = some lat → r.longitude = some lon →
         -90 ≤ lat ∧ lat ≤ 90 ∧ -180 ≤ lon ∧ lon ≤ 180)) ∧
    (r.record_id.isEmpty = true →
      r.validate = Except.error "record_id is required") ∧
    (r.record_id.isEmpty = false → r.deceased_name.isEmpty = true →
      r.validate = Except.error "deceased_name is required") ∧
    (r.record_id.isEmpty = false → r.deceased_name.isEmpty = false →
      r.burial_location.isEmpty = true →
      r.validate = Except.error "burial_location is required") ∧
    (r.record_id.isEmpty = false → r.deceased_name.isEmpty = false →
      r.burial_location.isEmpty = false → r.burial_date < r.death_date →
      r.validate = Except.error "burial_date cannot be before death_date") ∧
    (∀ lat lon, r.record_id.isEmpty = false → r.deceased_name.isEmpty = false →
      r.burial_location.isEmpty = false → r.death_date ≤ r.burial_date →
      r.latitude = some lat → r.longitude = some lon →
      (lat < -90 ∨ 90 < lat) →
      r.validate = Except.error "Invalid latitude") ∧
    (∀ lat lon, r.record_id.isEmpty = false → r.deceased_name.isEmpty = false →
      r.burial_location.isEmpty = false → r.death_date ≤ r.burial_date →
      r.latitude = some lat → r.longitude = some lon →
      -90 ≤ lat → lat ≤ 90 → (lon < -180 ∨ 180 < lon) →
      r.validate = Except.error "Invalid longitude") := by
  refine ⟨validate_ok_iff r, ?_, ?_, ?_, ?_, ?_, ?_⟩
  · intro h1
    simp [DeceasedRecord.validate, h1]
  · intro h1 h2
    simp [DeceasedRecord.validate, h1, h2]
  · intro h1 h2 h3
    simp [DeceasedRecord.validate, h1, h2, h3]
  · intro h1 h2 h3 h4
    simp [DeceasedRecord.validate, h1, h2, h3, h4]
  · intro lat lon h1 h2 h3 h4 hlat hlon h5
    simp [DeceasedRecord.validate, h1, h2, h3, not_lt.mpr h4, hlat, hlon, h5]
  · intro lat lon h1 h2 h3 h4 hlat hlon h5 h6 h7
    simp [DeceasedRecord.validate, h1, h2, h3, not_lt.mpr h4, hlat, hlon, h7,
      not_or.mpr ⟨not_lt.mpr h5, not_lt.mpr h6⟩]

/-- Witness for C4: the iff direction at a concrete valid record, and the
first-check error at that record with its id emptied. -/
theorem C4_validate_functional_spec_witness :
    sampleValidRecord.validate = Except.ok () ∧
    DeceasedRecord.validate { sampleValidRecord with record_id := "" } =
      Except.error "record_id is required" :=
  ⟨(C4_validate_functional_spec sampleValidRecord).1.mpr
    ⟨by decide, by decide, by decide, by decide, fun lat lon hlat _ => nomatch hlat⟩,
   (C4_validate_functional_spec { sampleValidRecord with record_id := "" }).2.1
    (by decide)⟩

/-- C5: `to_geojson_feature` yields a feature exactly when `has_coordinates`,
and that feature is a `Point` listing longitude before latitude, with section,
row and plot present in the property bag exactly when present on the record. -/
theorem C5_to_geojson_feature_spec (r : DeceasedRecord) :
    (r.to_geojson_feature.isSome = r.has_coordinates) ∧
    (∀ lat lon, r.latitude = some lat → r.longitude = some lon →
      ∃ ft, r.to_geojson_feature = some ft ∧
        ft.feature_type = "Feature" ∧
        ft.geometry.geometry_type = "Point" ∧
        ft.geometry.coordinates = [lon, lat] ∧
        (∀ s, ("section", PropVal.str s) ∈ ft.properties ↔ r.cem_section = some s) ∧
        (∀ n, ("row", PropVal.int n) ∈ ft.properties ↔ r.row_number = some n) ∧
        (∀ n, ("plot", PropVal.int n) ∈ ft.properties ↔ r.plot_number = some n)) := by
  constructor
  · unfold DeceasedRecord.to_geojson_feature DeceasedRecord.has_coordinates
    rcases r.latitude with _ | lat <;> rcases r.longitude with _ | lon <;> simp
  · intro lat lon hlat hlon
    unfold DeceasedRecord.to_geojson_feature
    rw [hlat, hlon]
    refine ⟨_, rfl, rfl, rfl, rfl, ?_, ?_, ?_⟩ <;>
    · intro x
      rcases hs : r.cem_section with _ | s₀ <;>
        rcases hrow : r.row_number with _ | n₀ <;>
        rcases hplot : r.plot_number with _ | m₀ <;>
        simp [hs, hrow, hplot, eq_comm]

/-- Witness for C5: the concrete record with lat = 32.0, lon = 44.3 yields a
point feature with coordinates [44.3, 32.0]. -/
theorem C5_to_geojson_feature_spec_witness :
    ∃ ft, sampleCoordRecord.to_geojson_feature = some ft ∧
      ft.geometry.geometry_type = "Point" ∧
      ft.geometry.coordinates = [443 / 10, 32] := by
  obtain ⟨ft, hft, -, hpt, hcoords, -, -, -⟩ :=
    (C5_to_geojson_feature_spec sampleCoordRecord).2 32 (443 / 10) rfl rfl
  exact ⟨ft, hft, hpt, hcoords⟩

/-- C9: when exactly one of latitude/longitude is set, `validate` never examines
it (any value passes, the other checks holding), `has_coordinates` is false and
`to_geojson_feature` is `none`. -/
theorem C9_lone_coordinate_unchecked (r : DeceasedRecord)
    (hone : (r.latitude ≠ none ∧ r.longitude = none) ∨
            (r.latitude = none ∧ r.longitude ≠ none))
    (hid : r.record_id.isEmpty = false)
    (hname : r.deceased_name.isEmpty = false)
    (hloc : r.burial_location.isEmpty = false)
    (hdates : r.death_date ≤ r.burial_date) :
    r.validate = Except.ok () ∧
    r.has_coordinates = false ∧
    r.to_geojson_feature = none := by
  refine ⟨(validate_ok_iff r).mpr ⟨hid, hname, hloc, hdates, ?_⟩, ?_, ?_⟩
  · intro lat lon hlat hlon
    rcases hone with ⟨-, h⟩ | ⟨h, -⟩ <;> simp [h] at hlat hlon
  · unfold DeceasedRecord.has_coordinates
    rcases hone with ⟨-, h⟩ | ⟨h, -⟩ <;> simp [h]
  · unfold DeceasedRecord.to_geojson_feature
    rcases hone with ⟨-, h⟩ | ⟨h, -⟩ <;> rw [h] <;>
      rcases r.latitude with _ | lat <;> rcases r.longitude with _ | lon <;> rfl

/-- Witness for C9: latitude 999.0 with longitude absent is accepted by
`validate`, reports no coordinates, and produces no feature. -/
theorem C9_lone_coordinate_unchecked_witness :
    DeceasedRecord.validate { sampleValidRecord with latitude := some 999 } =
      Except.ok () ∧
    DeceasedRecord.has_coordinates
      { sampleValidRecord with latitude := some 999 } = false ∧
    DeceasedRecord.to_geojson_feature
      { sampleValidRecord with latitude := some 999 } = none :=
  C9_lone_coordinate_unchecked { sampleValidRecord with latitude := some 999 }
    (Or.inl ⟨by decide, rfl⟩) (by decide) (by decide) (by decide) (by decide)

/-- The conflict predicate used by the store's unique-key lookup. -/
def keyIs (rid : String) : DbRow → Bool := fun row => row.record_id == rid

/-- A state whose `deceased_records` table has no row keyed `rid`. -/
def freshKey (st : DbState) (rid : String) : Prop :=
  st.rows.find? (keyIs rid) = none

/-- C3: after two successive upserts of the same `record_id` into a store not
yet holding that key, the stored row carries the second record's name, burial
date, coordinates, status and modification timestamp, while every other
persisted column keeps its first-upsert value (including the source file). -/
theorem C3_upsert_frame_effect (st : DbState) (r1 r2 : DeceasedRecord)
    (src1 src2 : String) (t1 t2 : Nat)
    (hfresh : freshKey st r1.record_id)
    (hid : r2.record_id = r1.record_id) :
    ∃ row,
      ((Database.insert_deceased_record
          (Database.insert_deceased_record st r1 src1 t1).1 r2 src2 t2).1).rows.find?
        (keyIs r1.record_id) = some row ∧
      -- columns the conflict arm updates, from the second upsert:
      row.deceased_name = r2.deceased_name ∧
      row.burial_date = r2.burial_date ∧
      row.coordinates = Database.coordinates_wkt r2 ∧
      row.processing_status = "completed" ∧
      row.updated_at = some t2 ∧
      -- every other column keeps its first-upsert value:
      row.record_id = r1.record_id ∧
      row.deceased_name_arabic = r1.deceased_name_arabic ∧
      row.father_name = r1.father_name ∧
      row.grandfather_name = r1.grandfather_name ∧
      row.death_date = r1.death_date ∧
      row.death_location = r1.death_location ∧
      row.burial_location = r1.burial_location ∧
      row.cem_section = r1.cem_section ∧
      row.row_number = r1.row_number ∧
      row.plot_number = r1.plot_number ∧
      row.grave_number = r1.grave_number ∧
      row.age_at_death = r1.age_at_death ∧
      row.cause_of_death = r1.cause_of_death ∧
      row.national_id = r1.national_id ∧
      row.family_contact = r1.family_contact ∧
      row.additional_data = r1.additional_data ∧
      row.source_file = src1 := by
  have hnotin : ∀ q ∈ st.rows, (q.record_id == r1.record_id) = false := by
    intro q hq
    have h := List.find?_eq_none.mp hfresh q hq
    simp only [keyIs] at h
    simpa using h
  set new := Database.DbRow.ofRecord r1 src1 st.next_id with hnew
  have hstep1 : (Database.insert_deceased_record st r1 src1 t1).1 =
      { st with rows := st.rows ++ [new], next_id := st.next_id + 1 } := by
    unfold Database.insert_deceased_record
    rw [show st.rows.find? (fun row => row.record_id == r1.record_id) = none from hfresh]
  have hpnew : (new.record_id == r2.record_id) = true := by
    simp [hnew, Database.DbRow.ofRecord, hid]
  have hfind2 : (st.rows ++ [new]).find? (fun row => row.record_id == r2.record_id) =
      some new := by
    rw [List.find?_append]
    have h1 : st.rows.find? (fun row => row.record_id == r2.record_id) = none := by
      rw [List.find?_eq_none]
      intro q hq
      simp [hid, hnotin q hq]
    rw [h1]
    simp [List.find?, hpnew]
  have hstep2 : (Database.insert_deceased_record
      { st with rows := st.rows ++ [new], next_id := st.next_id + 1 } r2 src2 t2).1 =
      { st with
        rows := (st.rows ++ [new]).map fun q =>
          if q.record_id == r2.record_id then Database.DbRow.onConflictUpdate q r2 t2
          else q
        next_id := st.next_id + 1 } := by
    unfold Database.insert_deceased_record
    rw [hfind2]
  rw [hstep1, hstep2]
  have hcongr : ∀ q ∈ st.rows,
      (if q.record_id == r2.record_id then Database.DbRow.onConflictUpdate q r2 t2
       else q) = id q := by
    intro q hq
    have h := hnotin q hq
    rw [hid]
    simp [h]
  have hmap : ((st.rows ++ [new]).map fun q =>
      if q.record_id == r2.record_id then Database.DbRow.onConflictUpdate q r2 t2
      else q) =
      st.rows ++ [Database.DbRow.onConflictUpdate new r2 t2] := by
    rw [List.map_append]
    congr 1
    · exact (List.map_congr_left hcongr).trans (List.map_id _)
    · have h' : new.record_id = r2.record_id := by simpa using hpnew
      simp [h']
  rw [hmap]
  refine ⟨Database.DbRow.onConflictUpdate new r2 t2, ?_, ?_⟩
  · rw [List.find?_append]
    have h1 : st.rows.find? (keyIs r1.record_id) = none := hfresh
    rw [h1]
    have : (keyIs r1.record_id) (Database.DbRow.onConflictUpdate new r2 t2) = true := by
      simp [keyIs, Database.DbRow.onConflictUpdate, hnew, Database.DbRow.ofRecord]
    simp [List.find?, this]
  · simp [Database.DbRow.onConflictUpdate, hnew, Database.DbRow.ofRecord]

/-- An empty store, for witnesses. -/
def emptyDb : DbState := { rows := [], next_id := 1, features := [], log := [] }

/-- A second upsert of the identity of `sampleValidRecord` carrying a changed
name, a changed burial date, and a national id that the conflict arm must not
store. -/
def sampleRecordV2 : DeceasedRecord :=
  { sampleValidRecord with
    deceased_name := "Updated"
    burial_date := 12
    national_id := some "X123" }

/-- Witness for C3: concrete double upsert from the empty store: the second
upsert's name lands, its national id does not, the source file stays that of
the first upsert. -/
theorem C3_upsert_frame_effect_witness :
    ∃ row,
      ((Database.insert_deceased_record
          (Database.insert_deceased_record emptyDb sampleValidRecord "a.csv" 1).1
          sampleRecordV2 "b.csv" 2).1).rows.find?
        (keyIs sampleValidRecord.record_id) = some row ∧
      row.deceased_name = "Updated" ∧
      row.national_id = none ∧
      row.source_file = "a.csv" := by
  obtain ⟨row, hf, hname, -, -, -, -, -, -, -, -, -, -, -, -, -, -, -, -, -,
      hnat, -, -, hsrc⟩ :=
    C3_upsert_frame_effect emptyDb sampleValidRecord sampleRecordV2
      "a.csv" "b.csv" 1 2 rfl rfl
  exact ⟨row, hf, hname, hnat, hsrc⟩

/-- Specification-side view of a batch: the sub-list of records whose
per-record statement (at its offset in the batch) does not fail. -/
def batchSuccesses (fails : Nat → Bool) : List DeceasedRecord → Nat →
    List DeceasedRecord
  | [], _ => []
  | r :: rest, i =>
    if fails i then batchSuccesses fails rest (i + 1)
    else r :: batchSuccesses fails rest (i + 1)

/-- Specification-side view of committing a list of upserts in order. -/
def applyUpserts (st : DbState) (rs : List DeceasedRecord) (src : String)
    (now : Nat) : DbState :=
  rs.foldl (fun acc r => (Database.insert_deceased_record acc r src now).1) st

lemma insert_batch_loop_spec (fails : Nat → Bool) (src : String) (now : Nat) :
    ∀ (records : List DeceasedRecord) (st : DbState) (i inserted : Nat),
      Database.insert_batch_loop fails st records src now i inserted =
        Except.ok (applyUpserts st (batchSuccesses fails records i) src now,
          inserted + (batchSuccesses fails records i).length) := by
  intro records
  induction records with
  | nil => intro st i inserted; simp [Database.insert_batch_loop, batchSuccesses,
      applyUpserts]
  | cons r rest ih =>
    intro st i inserted
    by_cases hf : fails i
    · simp [Database.insert_batch_loop, Database.insert_deceased_record_res, hf,
        batchSuccesses, ih]
    · simp only [Database.insert_batch_loop, Database.insert_deceased_record_res,
        hf, if_false, Bool.false_eq_true, reduceIte, batchSuccesses, ih]
      simp [applyUpserts, List.length_cons]
      omega

/-- C6: `insert_batch` never fails wholesale: it commits the upserts of exactly
the records whose own statement succeeds, in order (earlier successes stay
committed when a later record fails), and returns the count of successes. -/
theorem C6_insert_batch_best_effort (fails : Nat → Bool) (st : DbState)
    (records : List DeceasedRecord) (src : String) (now : Nat) :
    Database.insert_batch fails st records src now =
      Except.ok (applyUpserts st (batchSuccesses fails records 0) src now,
        (batchSuccesses fails records 0).length) := by
  unfold Database.insert_batch
  rw [insert_batch_loop_spec]
  simp

lemma mapM_error_of_mem {α β : Type} (f : α → Except String β) :
    ∀ l : List α, (∃ x ∈ l, ∃ e, f x = Except.error e) →
      ∃ e, l.mapM f = Except.error e := by
  intro l
  induction l with
  | nil => rintro ⟨x, hx, -⟩; cases hx
  | cons a l ih =>
    rintro ⟨x, hx, e, hbad⟩
    rcases List.mem_cons.mp hx with rfl | hx
    · cases hfa : f x with
      | error e' => exact ⟨e', by rw [List.mapM_cons, hfa]; rfl⟩
      | ok b => rw [hfa] at hbad; cases hbad
    · cases hfa : f a with
      | error e' => exact ⟨e', by rw [List.mapM_cons, hfa]; rfl⟩
      | ok b =>
        obtain ⟨e', he'⟩ := ih ⟨x, hx, e, hbad⟩
        exact ⟨e', by rw [List.mapM_cons, hfa, he']; rfl⟩

lemma mem_of_mapM_ok {α β : Type} (f : α → Except String β) :
    ∀ (l : List α) (data : List β), l.mapM f = Except.ok data →
      ∀ x ∈ l, ∃ y ∈ data, f x = Except.ok y := by
  intro l
  induction l with
  | nil => intro data _ x hx; cases hx
  | cons a l ih =>
    intro data hdata x hx
    cases hfa : f a with
    | error e => rw [List.mapM_cons, hfa] at hdata; cases hdata
    | ok b =>
      cases hml : l.mapM f with
      | error e => rw [List.mapM_cons, hfa, hml] at hdata; cases hdata
      | ok bs =>
        rw [List.mapM_cons, hfa, hml] at hdata
        simp only [bind, Except.bind, pure, Except.pure, Except.ok.injEq] at hdata
        subst hdata
        rcases List.mem_cons.mp hx with rfl | hx
        · exact ⟨b, List.mem_cons_self .., hfa⟩
        · obtain ⟨y, hy, hfy⟩ := ih bs hml x hx
          exact ⟨y, List.mem_cons_of_mem _ hy, hfy⟩

/-- A `records`-array element the structured-hierarchical strategy rejects: it
is missing a required field, or its death or burial date string does not parse
in the fixed format. -/
def rawRecordRejected (o : ParseOracle) (raw : DataParser.RawJsonRecord) : Prop :=
  match DataParser.decodeJsonRecord raw with
  | Except.error _ => True
  | Except.ok j =>
    o.parseDate j.death_date = none ∨ o.parseDate j.burial_date = none

lemma json_record_to_deceased_error (o : ParseOracle) (j : DataParser.JsonRecord)
    (h : o.parseDate j.death_date = none ∨ o.parseDate j.burial_date = none) :
    ∃ e, DataParser.json_record_to_deceased o j = Except.error e := by
  unfold DataParser.json_record_to_deceased
  rcases h with h | h
  · exact ⟨_, by simp only [h]; rfl⟩
  · cases hd : o.parseDate j.death_date with
    | none => exact ⟨_, by simp only [hd]; rfl⟩
    | some d => exact ⟨_, by simp only [hd, h]; rfl⟩

/-- C7: in `parse_json_file`, one record missing a required field or carrying an
unparseable date fails the entire file: the result is an error, hence zero
records come back, however well-formed the other records are. -/
theorem C7_json_strategy_aborts_file (o : ParseOracle)
    (raws : List DataParser.RawJsonRecord)
    (h : ∃ raw ∈ raws, rawRecordRejected o raw) :
    ∃ e, DataParser.parse_json_file o raws = Except.error e := by
  obtain ⟨raw, hmem, hbad⟩ := h
  unfold DataParser.parse_json_file
  cases hdec : raws.mapM DataParser.decodeJsonRecord with
  | error e => exact ⟨e, rfl⟩
  | ok data =>
    obtain ⟨j, hj, hjr⟩ := mem_of_mapM_ok _ raws data hdec raw hmem
    unfold rawRecordRejected at hbad
    rw [hjr] at hbad
    obtain ⟨e', he'⟩ := mapM_error_of_mem (DataParser.json_record_to_deceased o)
      data ⟨j, hj, json_record_to_deceased_error o j hbad⟩
    exact ⟨e', he'⟩

/-- A concrete instantiation of the external parsing primitives, recognizing the
few literals the witnesses use. -/
def sampleOracle : ParseOracle :=
  { parseDate := fun s =>
      if s = "2020-01-01" then some 100
      else if s = "2020-01-02" then some 101
      else none
    parseF64 := fun s =>
      if s = "32.0" then some 32
      else if s = "44.3" then some (443 / 10)
      else none
    parseI32 := fun s => if s = "5" then some 5 else none }

/-- A well-formed element of a JSON `records` array. -/
def goodRawJson : DataParser.RawJsonRecord :=
  { record_id := some "J1"
    deceased_name := some "Ali"
    deceased_name_arabic := none
    death_date := some "2020-01-01"
    burial_date := some "2020-01-02"
    burial_location := some "Najaf"
    coordinates := none
    location := none }

/-- A `records` element whose death date does not parse. -/
def badDateRawJson : DataParser.RawJsonRecord :=
  { goodRawJson with record_id := some "J2", death_date := some "garbage" }

/-- Witness for C7: a two-record file whose second record has an unparseable
death date fails wholesale, despite the first record being well-formed. -/
theorem C7_json_strategy_aborts_file_witness :
    ∃ e, DataParser.parse_json_file sampleOracle [goodRawJson, badDateRawJson] =
      Except.error e :=
  C7_json_strategy_aborts_file sampleOracle [goodRawJson, badDateRawJson]
    ⟨badDateRawJson, by simp,
     by simp [rawRecordRejected, DataParser.decodeJsonRecord, badDateRawJson,
       goodRawJson, sampleOracle]⟩

/-- The field lists of the structurally-read rows of a CSV row stream, in
order. -/
def okRowFields : List CsvRow → List (List String)
  | [] => []
  | CsvRow.ok f :: rest => f :: okRowFields rest
  | CsvRow.err _ :: rest => okRowFields rest

/-- The number of structural read errors in a CSV row stream. -/
def errCount : List CsvRow → Nat
  | [] => 0
  | CsvRow.ok _ :: rest => errCount rest
  | CsvRow.err _ :: rest => errCount rest + 1

lemma parse_csv_rows_all_ok (o : ParseOracle) :
    ∀ (rows : List CsvRow) (n : Nat) (recs0 : List DeceasedRecord)
      (ws0 : List LineWarning),
      (∀ fields, CsvRow.ok fields ∈ rows →
        ∃ rec, DataParser.parse_csv_record o fields = Except.ok rec) →
      ∃ recs ws,
        DataParser.parse_csv_rows o rows n recs0 ws0 =
          Except.ok (recs0 ++ recs, ws0 ++ ws) ∧
        (okRowFields rows).mapM (DataParser.parse_csv_record o) = Except.ok recs ∧
        ws.length = errCount rows := by
  intro rows
  induction rows with
  | nil =>
    intro n recs0 ws0 _
    exact ⟨[], [], by simp [DataParser.parse_csv_rows], rfl, rfl⟩
  | cons row rest ih =>
    intro n recs0 ws0 hok
    cases row with
    | ok fields =>
      obtain ⟨rec, hrec⟩ := hok fields (List.mem_cons_self ..)
      obtain ⟨recs, ws, hloop, hmap, hlen⟩ :=
        ih (n + 1) (recs0 ++ [rec]) ws0
          (fun f hf => hok f (List.mem_cons_of_mem _ hf))
      refine ⟨rec :: recs, ws, ?_, ?_, ?_⟩
      · simp only [DataParser.parse_csv_rows, hrec]
        show DataParser.parse_csv_rows o rest (n + 1) (recs0 ++ [rec]) ws0 =
          Except.ok (recs0 ++ rec :: recs, ws0 ++ ws)
        rw [hloop]
        simp
      · rw [okRowFields, List.mapM_cons, hrec, hmap]
        rfl
      · simpa [errCount] using hlen
    | err e =>
      obtain ⟨recs, ws, hloop, hmap, hlen⟩ :=
        ih (n + 1) recs0 (ws0 ++ [⟨n + 1, s!"Error parsing CSV line: {e}"⟩])
          (fun f hf => hok f (List.mem_cons_of_mem _ hf))
      refine ⟨recs, ⟨n + 1, s!"Error parsing CSV line: {e}"⟩ :: ws, ?_, ?_, ?_⟩
      · simp only [DataParser.parse_csv_rows]
        rw [hloop]
        simp
      · simpa [okRowFields] using hmap
      · simp [errCount, hlen]

lemma parse_csv_rows_error_of_bad_row (o : ParseOracle) :
    ∀ (rows : List CsvRow) (n : Nat) (recs0 : List DeceasedRecord)
      (ws0 : List LineWarning) (fields : List String),
      CsvRow.ok fields ∈ rows →
      (∃ e, DataParser.parse_csv_record o fields = Except.error e) →
      ∃ e, DataParser.parse_csv_rows o rows n recs0 ws0 = Except.error e := by
  intro rows
  induction rows with
  | nil => intro n recs0 ws0 fields hmem _; cases hmem
  | cons row rest ih =>
    intro n recs0 ws0 fields hmem herr
    cases row with
    | ok f =>
      cases hp : DataParser.parse_csv_record o f with
      | error e =>
        exact ⟨e, by simp only [DataParser.parse_csv_rows, hp]; rfl⟩
      | ok rec =>
        rcases List.mem_cons.mp hmem with heq | hmem'
        · obtain ⟨e, he⟩ := herr
          rw [CsvRow.ok.injEq] at heq
          rw [heq] at he
          rw [he] at hp
          cases hp
        · obtain ⟨e, he⟩ :=
            ih (n + 1) (recs0 ++ [rec]) ws0 fields hmem' herr
          exact ⟨e, by simp only [DataParser.parse_csv_rows, hp]; exact he⟩
    | err msg =>
      have hmem' : CsvRow.ok fields ∈ rest := by
        rcases List.mem_cons.mp hmem with heq | hmem'
        · cases heq
        · exact hmem'
      obtain ⟨e, he⟩ :=
        ih (n + 1) recs0 (ws0 ++ [⟨n + 1, s!"Error parsing CSV line: {msg}"⟩])
          fields hmem' herr
      exact ⟨e, by simp only [DataParser.parse_csv_rows]; exact he⟩

/-- A CSV data row that parses cleanly (dates recognized by `sampleOracle`). -/
def goodCsvRow1 : List String :=
  ["C1", "Ali", "", "2020-01-01", "2020-01-02", "Najaf", "", "", "", "", ""]

/-- A CSV data row whose death-date column does not parse as `YYYY-MM-DD`. -/
def badCsvRow2 : List String :=
  ["C2", "Omar", "", "not-a-date", "2020-01-02", "Najaf", "", "", "", "", ""]

/-- Another cleanly parsing CSV data row. -/
def goodCsvRow3 : List String :=
  ["C3", "Zayd", "", "2020-01-01", "2020-01-02", "Najaf", "", "", "", "", ""]

/-- Counterexample to C1: a 3-data-row file whose row 2 has an unparseable death
date does NOT yield 2 parsed records — `parse_csv_file` aborts the whole file
with the date-parse error propagated by the `?` inside the row loop. -/
theorem C1_counterexample_bad_date_aborts_file :
    DataParser.parse_csv_file sampleOracle
      [CsvRow.ok goodCsvRow1, CsvRow.ok badCsvRow2, CsvRow.ok goodCsvRow3] =
    Except.error "input is not enough for unique date and time" := by
  rfl

/-- C1 (amended): in `parse_csv_file`, a row raising a structural read error is
skipped with a warning and parsing continues with subsequent rows; but a row
whose death or burial date fails to parse aborts the entire file with an error
(no records are returned for any row). -/
theorem C1_csv_row_error_tolerance (o : ParseOracle) (rows : List CsvRow) :
    ((∀ fields, CsvRow.ok fields ∈ rows →
        ∃ rec, DataParser.parse_csv_record o fields = Except.ok rec) →
      ∃ recs ws, DataParser.parse_csv_file o rows = Except.ok (recs, ws) ∧
        (okRowFields rows).mapM (DataParser.parse_csv_record o) = Except.ok recs ∧
        ws.length = errCount rows) ∧
    ((∃ fields, CsvRow.ok fields ∈ rows ∧
        ∃ e, DataParser.parse_csv_record o fields = Except.error e) →
      ∃ e, DataParser.parse_csv_file o rows = Except.error e) := by
  constructor
  · intro hok
    obtain ⟨recs, ws, hloop, hmap, hlen⟩ := parse_csv_rows_all_ok o rows 1 [] [] hok
    refine ⟨recs, ws, ?_, hmap, hlen⟩
    unfold DataParser.parse_csv_file
    simpa using hloop
  · rintro ⟨fields, hmem, herr⟩
    exact parse_csv_rows_error_of_bad_row o rows 1 [] [] fields hmem herr

/-- Witness for C1 (amended): a stream with a structural read error in the
middle still parses its two good rows with one warning, while a stream with an
unparseable date in the middle aborts wholesale. -/
theorem C1_csv_row_error_tolerance_witness :
    (∃ recs ws,
      DataParser.parse_csv_file sampleOracle
        [CsvRow.ok goodCsvRow1, CsvRow.err "utf8 error", CsvRow.ok goodCsvRow3] =
        Except.ok (recs, ws) ∧
      (okRowFields [CsvRow.ok goodCsvRow1, CsvRow.err "utf8 error",
          CsvRow.ok goodCsvRow3]).mapM
        (DataParser.parse_csv_record sampleOracle) = Except.ok recs ∧
      ws.length = errCount [CsvRow.ok goodCsvRow1, CsvRow.err "utf8 error",
        CsvRow.ok goodCsvRow3]) ∧
    (∃ e, DataParser.parse_csv_file sampleOracle
      [CsvRow.ok goodCsvRow1, CsvRow.ok badCsvRow2, CsvRow.ok goodCsvRow3] =
      Except.error e) :=
  ⟨(C1_csv_row_error_tolerance sampleOracle
      [CsvRow.ok goodCsvRow1, CsvRow.err "utf8 error", CsvRow.ok goodCsvRow3]).1
    (by
      intro fields hf
      simp only [List.mem_cons, List.mem_singleton, reduceCtorEq, or_false,
        false_or, CsvRow.ok.injEq] at hf
      rcases hf with hf | hf | hf
      · subst hf; exact ⟨_, rfl⟩
      · subst hf; exact ⟨_, rfl⟩
      · cases hf),
   (C1_csv_row_error_tolerance sampleOracle
      [CsvRow.ok goodCsvRow1, CsvRow.ok badCsvRow2, CsvRow.ok goodCsvRow3]).2
    ⟨badCsvRow2, by simp, ⟨_, rfl⟩⟩⟩

/-- C8: in the tabular strategy, an absent or non-numeric latitude, longitude,
row-number or plot-number field maps silently to `none`: provided only that the
two dates parse, the row parses successfully (no error, no warning), and when
its coordinate columns hold garbage the resulting record has no coordinates,
passes validation (its other checks holding) and never yields a spatial
feature. -/
theorem C8_csv_numeric_fields_silently_none (o : ParseOracle)
    (fields : List String) (d1 d2 : Date)
    (hdd : o.parseDate ((fields.get? 3).getD "") = some d1)
    (hbd : o.parseDate ((fields.get? 4).getD "") = some d2)
    (hlat : (fields.get? 6).bind o.parseF64 = none)
    (hlon : (fields.get? 7).bind o.parseF64 = none)
    (hrow : (fields.get? 9).bind o.parseI32 = none)
    (hplot : (fields.get? 10).bind o.parseI32 = none)
    (hid : ((fields.get? 0).getD "").isEmpty = false)
    (hname : ((fields.get? 1).getD "").isEmpty = false)
    (hloc : ((fields.get? 5).getD "").isEmpty = false)
    (hdates : d1 ≤ d2) :
    ∃ rec, DataParser.parse_csv_record o fields = Except.ok rec ∧
      rec.latitude = none ∧ rec.longitude = none ∧
      rec.row_number = none ∧ rec.plot_number = none ∧
      rec.validate = Except.ok () ∧
      rec.has_coordinates = false ∧
      rec.to_geojson_feature = none := by
  refine ⟨
    { record_id := (fields.get? 0).getD ""
      deceased_name := (fields.get? 1).getD ""
      deceased_name_arabic := (fields.get? 2).map id
      father_name := none
      grandfather_name := none
      death_date := d1
      death_location := none
      burial_date := d2
      burial_location := (fields.get? 5).getD ""
      cem_section := (fields.get? 8).map id
      row_number := (fields.get? 9).bind o.parseI32
      plot_number := (fields.get? 10).bind o.parseI32
      grave_number := none
      latitude := (fields.get? 6).bind o.parseF64
      longitude := (fields.get? 7).bind o.parseF64
      age_at_death := none
      cause_of_death := none
      national_id := none
      family_contact := none
      additional_data := none }, ?_, hlat, hlon, hrow, hplot, ?_, ?_, ?_⟩
  · unfold DataParser.parse_csv_record
    rw [hdd, hbd]
    rfl
  · exact (validate_ok_iff _).mpr
      ⟨hid, hname, hloc, hdates, fun lat lon h _ => by
        simp only at h
        rw [hlat] at h
        cases h⟩
  · have hlat' : (fields[6]?.bind fun a => o.parseF64 a) = none := by
      simpa using hlat
    simp [DeceasedRecord.has_coordinates, hlat']
  · have hlat' : (fields[6]?.bind fun a => o.parseF64 a) = none := by
      simpa using hlat
    have hlon' : (fields[7]?.bind fun a => o.parseF64 a) = none := by
      simpa using hlon
    simp [DeceasedRecord.to_geojson_feature, hlat', hlon']

/-- A CSV data row with garbage in its latitude, longitude, row and plot
columns. -/
def garbageCoordCsvRow : List String :=
  ["C4", "Huda", "", "2020-01-01", "2020-01-02", "Najaf", "xx", "yy", "A",
   "zz", "ww"]

/-- Witness for C8: the garbage-coordinate row parses into a coordinate-free,
valid, feature-free record. -/
theorem C8_csv_numeric_fields_silently_none_witness :
    ∃ rec, DataParser.parse_csv_record sampleOracle garbageCoordCsvRow =
        Except.ok rec ∧
      rec.latitude = none ∧ rec.longitude = none ∧
      rec.row_number = none ∧ rec.plot_number = none ∧
      rec.validate = Except.ok () ∧
      rec.has_coordinates = false ∧
      rec.to_geojson_feature = none :=
  C8_csv_numeric_fields_silently_none sampleOracle garbageCoordCsvRow 100 101
    rfl rfl rfl rfl rfl rfl (by decide) (by decide) (by decide) (by decide)

lemma insert_batch_spec (fails : Nat → Bool) (st : DbState)
    (records : List DeceasedRecord) (src : String) (now : Nat) :
    Database.insert_batch fails st records src now =
      Except.ok (applyUpserts st (batchSuccesses fails records 0) src now,
        (batchSuccesses fails records 0).length) := by
  unfold Database.insert_batch
  rw [insert_batch_loop_spec]
  simp

/-- The error entries the directory orchestrator collects for rejected files:
one per file `detect_and_parse` fails on, in directory order. -/
def fileParseErrors (o : ParseOracle) : List SrcFile → List ErrorDetails
  | [] => []
  | f :: rest =>
    match DataParser.detect_and_parse o f with
    | Except.ok _ => fileParseErrors o rest
    | Except.error e =>
      let n := f.name
      ⟨none, s!"Failed to parse file {n}: {e}"⟩ :: fileParseErrors o rest

lemma parse_stage_errors (o : ParseOracle) :
    ∀ files : List SrcFile, (DataProcessor.parse_stage o files).2 =
      fileParseErrors o files := by
  intro files
  induction files with
  | nil => rfl
  | cons f rest ih =>
    unfold DataProcessor.parse_stage fileParseErrors
    cases DataParser.detect_and_parse o f <;> simp [ih]

/-- A metadata value for witnesses. -/
def sampleMetadata : FileMetadata :=
  { filename := "batch1.csv"
    file_hash := "abc"
    size := 10
    download_time := "t0"
    extracted_path := none }

/-- A file with an unsupported extension. -/
def unsupportedFile : SrcFile :=
  { name := "data.dat", csvContent := [], jsonContent := [] }

/-- Counterexample to C2: in `process_single_file` an unsupported file format is
NOT a collected error — the run aborts with a failed (error) result instead of
returning a successful aggregated result. -/
theorem C2_counterexample_single_file_fatal :
    DataProcessor.process_single_file sampleOracle (fun _ => false) emptyDb
      (some unsupportedFile) sampleMetadata 7 =
    Except.error "Unsupported file format: dat" := by
  rfl

/-- C2 (amended): in `process_directory`, an unsupported format or file-level
parse failure is collected — the run still returns a successful aggregated
result whose error list carries one entry per rejected file; in
`process_single_file`, the same failure is fatal: the run aborts with an
error. -/
theorem C2_per_file_failure_handling (o : ParseOracle) (fails : Nat → Bool)
    (st : DbState) (files : List SrcFile) (metadata : FileMetadata) (now : Nat) :
    (∃ out, DataProcessor.process_directory o fails st (some files) metadata now =
        Except.ok out ∧
      out.2.errors = fileParseErrors o files ++
        (DataProcessor.validate_stage (DataProcessor.parse_stage o files).1).2) ∧
    (∀ f, (∃ e, DataParser.detect_and_parse o f = Except.error e) →
      ∃ e, DataProcessor.process_single_file o fails st (some f) metadata now =
        Except.error e) := by
  constructor
  · simp only [DataProcessor.process_directory]
    rw [insert_batch_spec]
    refine ⟨_, rfl, ?_⟩
    show (DataProcessor.parse_stage o files).2 ++
      (DataProcessor.validate_stage (DataProcessor.parse_stage o files).1).2 = _
    rw [parse_stage_errors]
  · rintro f ⟨e, he⟩
    refine ⟨e, ?_⟩
    simp only [DataProcessor.process_single_file]
    rw [he]
    rfl

/-- Witness for C2 (amended): a directory containing only an unsupported-format
file still processes successfully with the failure collected, while the same
file given to `process_single_file` aborts the run. -/
theorem C2_per_file_failure_handling_witness :
    (∃ out, DataProcessor.process_directory sampleOracle (fun _ => false) emptyDb
        (some [unsupportedFile]) sampleMetadata 7 = Except.ok out ∧
      out.2.errors = fileParseErrors sampleOracle [unsupportedFile] ++
        (DataProcessor.validate_stage
          (DataProcessor.parse_stage sampleOracle [unsupportedFile]).1).2) ∧
    (∃ e, DataProcessor.process_single_file sampleOracle (fun _ => false) emptyDb
        (some unsupportedFile) sampleMetadata 7 = Except.error e) :=
  ⟨(C2_per_file_failure_handling sampleOracle (fun _ => false) emptyDb
      [unsupportedFile] sampleMetadata 7).1,
   (C2_per_file_failure_handling sampleOracle (fun _ => false) emptyDb
      [unsupportedFile] sampleMetadata 7).2 unsupportedFile
     ⟨"Unsupported file format: dat", rfl⟩⟩

lemma insert_deceased_record_log (st : DbState) (r : DeceasedRecord)
    (src : String) (now : Nat) :
    ((Database.insert_deceased_record st r src now).1).log = st.log := by
  unfold Database.insert_deceased_record
  cases hf : st.rows.find? (fun row => row.record_id == r.record_id) <;> rfl

lemma applyUpserts_log (src : String) (now : Nat) :
    ∀ (rs : List DeceasedRecord) (st : DbState),
      (applyUpserts st rs src now).log = st.log := by
  intro rs
  induction rs with
  | nil => intro st; rfl
  | cons r rest ih =>
    intro st
    show (applyUpserts (Database.insert_deceased_record st r src now).1
      rest src now).log = st.log
    rw [ih, insert_deceased_record_log]

/-- C10: whichever entry point is used, a run that reaches the audit-logging
stage appends exactly one processing-log entry, and that entry always has
status `"completed"` and a null error message — however many parse, validation
or persistence failures were collected on the way. -/
theorem C10_audit_always_completed (o : ParseOracle) (fails : Nat → Bool)
    (st : DbState) (metadata : FileMetadata) (now : Nat) :
    (∀ files out,
      DataProcessor.process_directory o fails st (some files) metadata now =
        Except.ok out →
      ∃ entry, out.1.log = st.log ++ [entry] ∧
        entry.status = "completed" ∧ entry.error_message = none) ∧
    (∀ f out,
      DataProcessor.process_single_file o fails st (some f) metadata now =
        Except.ok out →
      ∃ entry, out.1.log = st.log ++ [entry] ∧
        entry.status = "completed" ∧ entry.error_message = none) := by
  constructor
  · intro files out h
    simp only [DataProcessor.process_directory] at h
    rw [insert_batch_spec] at h
    simp only [bind, Except.bind, Except.ok.injEq] at h
    subst h
    simp only [Database.log_file_processing, Database.create_geojson_features,
      applyUpserts_log]
    exact ⟨_, rfl, rfl, rfl⟩
  · intro f out h
    simp only [DataProcessor.process_single_file] at h
    cases hdp : DataParser.detect_and_parse o f with
    | error e =>
      rw [hdp] at h
      simp only [bind, Except.bind] at h
      cases h
    | ok records =>
      rw [hdp] at h
      simp only [bind, Except.bind] at h
      rw [insert_batch_spec] at h
      simp only [Except.ok.injEq] at h
      subst h
      simp only [Database.log_file_processing, Database.create_geojson_features,
        applyUpserts_log]
      exact ⟨_, rfl, rfl, rfl⟩

/-- Witness for C10: a concrete directory run appends one completed, error-free
log entry. -/
theorem C10_audit_always_completed_witness :
    ∃ out entry,
      DataProcessor.process_directory sampleOracle (fun _ => false) emptyDb
        (some []) sampleMetadata 9 = Except.ok out ∧
      out.1.log = emptyDb.log ++ [entry] ∧
      entry.status = "completed" ∧ entry.error_message = none := by
  obtain ⟨out, hout⟩ :
      ∃ out, DataProcessor.process_directory sampleOracle (fun _ => false)
        emptyDb (some []) sampleMetadata 9 = Except.ok out := ⟨_, rfl⟩
  obtain ⟨entry, h1, h2, h3⟩ :=
    (C10_audit_always_completed sampleOracle (fun _ => false) emptyDb
      sampleMetadata 9).1 [] out hout
  exact ⟨out, entry, hout, h1, h2, h3⟩
